import Mathlib

/-!
# Verification of the Hash-Creator hashing and verification engine

Shallow embedding of the core engine of `src/main.py` (class `HashGenerator`):
the digest engine (`calculate_file_hash`), the concurrent scan scheduler
(`scan_location`), the manifest codec (`save_hashes` / `load_hashes`), the
verifier (`verify_integrity`) and the report builder
(`save_verification_report`).

Modelling conventions:
* Python byte strings are `List Nat` (each element a byte value); a file's
  content is the list of non-empty chunks returned by successive
  `f.read(chunk_size)` calls, so an empty file is `[]`.
* The shared `threading.Event` cancellation flag is a function
  `stop : Nat → Bool` giving the value observed at the i-th cooperative
  check point of a loop.
* The thread pool's `as_completed` order is an explicit completion-ordered
  list of per-file job results; dictionaries keyed by strings are
  association lists (`List (String × _)`), with Python's insert-or-overwrite
  update modelled by `dictInsert`.
* JSON values (`json.dump` / `json.load`) are the tree type `Json`; the
  Python library's text round-trip is below the abstraction level modelled
  here, so "persisted bytes" are the `Json` tree itself.
* External hash libraries (`hashlib`, `xxhash`, `blake3`) are oracles: a
  streaming hasher is extensionally a function from the absorbed bytes to
  the final hex digest, supplied as `digestOf : String → List Nat → String`.
  CRC32 is special-cased in the source and is modelled concretely from
  `zlib.crc32`'s table algorithm.
-/

/-! ## JSON model -/

/-- A JSON value as produced by `json.load`.  Numbers are modelled as `Int`
(Python ints are unbounded; the float `modified` field round-trips exactly
through Python's `json` module, so an exact numeric carrier is faithful for
the codec claims). -/
inductive Json where
  | str (s : String)
  | int (n : Int)
  | arr (elems : List Json)
  | obj (fields : List (String × Json))

/-- `data['k']`-style field access on a JSON object (first binding wins, as
in a Python dict whose keys are unique). -/
def Json.getKey (j : Json) (k : String) : Option Json :=
  match j with
  | .obj fields => fields.lookup k
  | _ => none

/-- Expect a JSON string. -/
def Json.asStr : Json → Option String
  | .str s => some s
  | _ => none

/-- Expect a JSON integer. -/
def Json.asInt : Json → Option Int
  | .int n => some n
  | _ => none

/-! ## Manifest data model (the dict built by `save_hashes`, lines 190-227) -/

/-- Per-file entry of the `hashes` mapping:
`{'hash': .., 'full_path': .., 'size': .., 'modified': ..}`. -/
structure FileRecord where
  hash : String
  full_path : String
  size : Int
  modified : Int
deriving DecidableEq

/-- The `metadata` section written by `save_hashes`. -/
structure ManifestMeta where
  algorithm : String
  scan_location : String
  timestamp : String
  total_files : Int
  error_files : Int
  application : String
deriving DecidableEq

/-- The whole persisted manifest value: metadata, relative-path → record
mapping, and the error listing. -/
structure Manifest where
  metadata : ManifestMeta
  hashes : List (String × FileRecord)
  errors : List String
deriving DecidableEq

/-- Serialization of one `FileRecord`, exactly the dict literal of
`main.py` lines 222-227. -/
def encodeFileRecord (r : FileRecord) : Json :=
  .obj [("hash", .str r.hash), ("full_path", .str r.full_path),
        ("size", .int r.size), ("modified", .int r.modified)]

/-- Serialization of the `metadata` dict (`main.py` lines 192-199). -/
def encodeMeta (m : ManifestMeta) : Json :=
  .obj [("algorithm", .str m.algorithm), ("scan_location", .str m.scan_location),
        ("timestamp", .str m.timestamp), ("total_files", .int m.total_files),
        ("error_files", .int m.error_files), ("application", .str m.application)]

/-- Serialization of the whole manifest: the `data` dict passed to
`json.dump` in `save_hashes` (`main.py` lines 191-231). -/
def encodeManifest (m : Manifest) : Json :=
  .obj [("metadata", encodeMeta m.metadata),
        ("hashes", .obj (m.hashes.map (fun p => (p.1, encodeFileRecord p.2)))),
        ("errors", .arr (m.errors.map .str))]

/-- Field-wise reader of a `FileRecord`, mirroring the accesses the code
performs on a loaded manifest (`file_info['hash']`,
`file_info.get('full_path', '')` in `verify_integrity`, plus the
`size`/`modified` fields of the documented shape). -/
def decodeFileRecord (j : Json) : Option FileRecord := do
  let h ← (← j.getKey "hash").asStr
  let fp ← (← j.getKey "full_path").asStr
  let sz ← (← j.getKey "size").asInt
  let md ← (← j.getKey "modified").asInt
  pure ⟨h, fp, sz, md⟩

/-- Field-wise reader of the metadata section
(`hash_data['metadata']['algorithm']` and friends). -/
def decodeMeta (j : Json) : Option ManifestMeta := do
  let alg ← (← j.getKey "algorithm").asStr
  let loc ← (← j.getKey "scan_location").asStr
  let ts ← (← j.getKey "timestamp").asStr
  let tf ← (← j.getKey "total_files").asInt
  let ef ← (← j.getKey "error_files").asInt
  let app ← (← j.getKey "application").asStr
  pure ⟨alg, loc, ts, tf, ef, app⟩

/-- Reader of the `hashes` object's entry list. -/
def decodeHashEntries : List (String × Json) → Option (List (String × FileRecord))
  | [] => some []
  | (k, v) :: rest => do
    let r ← decodeFileRecord v
    let rs ← decodeHashEntries rest
    pure ((k, r) :: rs)

/-- Reader of the `errors` array. -/
def decodeErrorList : List Json → Option (List String)
  | [] => some []
  | e :: rest => do
    let s ← e.asStr
    let rs ← decodeErrorList rest
    pure (s :: rs)

/-- Reader recovering the structured manifest from its JSON tree via the
field accesses the code performs on loaded manifests. -/
def decodeManifest (j : Json) : Option Manifest := do
  let mj ← j.getKey "metadata"
  let meta ← decodeMeta mj
  let hj ← j.getKey "hashes"
  let hs ← match hj with
    | .obj fields => decodeHashEntries fields
    | _ => none
  let ej ← j.getKey "errors"
  let es ← match ej with
    | .arr elems => decodeErrorList elems
    | _ => none
  pure ⟨meta, hs, es⟩

/-- `HashGenerator.load_hashes` (`main.py` lines 251-265).  The argument is
the result of `json.load` (`none` models a file that failed to open or
parse, in which case the enclosing `except` returns `None`).  The loaded
value is returned as-is after checking
`'metadata' not in data or 'hashes' not in data`; a non-dict top level
cannot pass that membership test and yields `None` as well. -/
def load_hashes (parsed : Option Json) : Option Json :=
  match parsed with
  | none => none
  | some d =>
    match d with
    | .obj fields =>
      if fields.any (fun p => p.1 == "metadata") && fields.any (fun p => p.1 == "hashes") then
        some d
      else none
    | _ => none

/-! ## Digest engine: `calculate_file_hash` (`main.py` lines 72-125) -/

/-- The result of a Python call: either a returned value or a raised
exception (carrying its message). -/
inductive PyOutcome where
  | ret (v : Option String)
  | raise (e : String)
deriving DecidableEq

/-- One bit-round of the zlib CRC-32 table computation: shift right and
conditionally xor the reflected polynomial `0xEDB88320`. -/
def crcRound (c : Nat) : Nat :=
  if c % 2 = 1 then (c / 2) ^^^ 0xEDB88320 else c / 2

/-- Entry `b` of the zlib CRC-32 lookup table: eight bit-rounds. -/
def crcTableEntry (b : Nat) : Nat :=
  crcRound^[8] b

/-- Absorb one byte into the running CRC state. -/
def crc32Step (s b : Nat) : Nat :=
  (s / 256) ^^^ crcTableEntry ((s ^^^ b) % 256)

/-- `zlib.crc32(data, v)`: pre- and post-conditioned table-driven CRC-32
over the byte list `data` with running value `v`. -/
def zlib_crc32 (data : List Nat) (v : Nat) : Nat :=
  (data.foldl crc32Step (v ^^^ 0xFFFFFFFF)) ^^^ 0xFFFFFFFF

/-- Lowercase hexadecimal digit list of `n`, most significant digit first
(at least one digit), as produced by Python's `x` format code. -/
def natToHex (n : Nat) : List Char :=
  if _h : n < 16 then [Nat.digitChar n]
  else natToHex (n / 16) ++ [Nat.digitChar (n % 16)]
decreasing_by exact Nat.div_lt_self (by omega) (by omega)

/-- Python's `f"{n:08x}"`: lowercase hex, zero-padded on the left to a
minimum width of 8. -/
def pyFormatHex08 (n : Nat) : String :=
  ⟨List.replicate (8 - (natToHex n).length) '0' ++ natToHex n⟩

/-- Numeric value of a lowercase hex digit. -/
def hexDigitVal (c : Char) : Nat :=
  match c with
  | '0' => 0 | '1' => 1 | '2' => 2 | '3' => 3 | '4' => 4
  | '5' => 5 | '6' => 6 | '7' => 7 | '8' => 8 | '9' => 9
  | 'a' => 10 | 'b' => 11 | 'c' => 12 | 'd' => 13 | 'e' => 14 | 'f' => 15
  | _ => 0

/-- Numeric value denoted by a big-endian hex digit list. -/
def hexValue (cs : List Char) : Nat :=
  cs.foldl (fun a c => 16 * a + hexDigitVal c) 0

/-- The lowercase hex alphabet. -/
def hexAlphabet : List Char :=
  "0123456789abcdef".data

/-- The CRC32 read loop of `calculate_file_hash` (lines 81-86): per chunk,
check the stop event (returning `None` when set), else fold the chunk into
the running checksum.  `i` is the index of the cooperative check. -/
def crcLoop (stop : Nat → Bool) : List (List Nat) → Nat → Nat → Option Nat
  | [], crc, _ => some crc
  | ch :: rest, crc, i =>
    if stop i then none else crcLoop stop rest (zlib_crc32 ch crc) (i + 1)

/-- The generic streaming-hasher read loop (lines 92-96, 102-106, 112-116):
identical structure, accumulating the absorbed bytes fed to `update`. -/
def hashLoop (stop : Nat → Bool) : List (List Nat) → List Nat → Nat → Option (List Nat)
  | [], acc, _ => some acc
  | ch :: rest, acc, i =>
    if stop i then none else hashLoop stop rest (acc ++ ch) (i + 1)

/-- The body of the `try:` block of `calculate_file_hash` (lines 75-118).
`supported` is the key set of `SUPPORTED_ALGORITHMS`; `digestOf` is the
oracle giving, for each non-CRC32 algorithm, the hex digest of the absorbed
bytes; `file` is the outcome of `open` + chunked reads (`Except.error`
models an `IOError`/`OSError` raised while opening or reading). -/
def calcBody (supported : List String) (digestOf : String → List Nat → String)
    (stop : Nat → Bool) (algorithm : String)
    (file : Except String (List (List Nat))) : PyOutcome :=
  if algorithm ∈ supported then
    match file with
    | .error e => .raise e
    | .ok chunks =>
      if algorithm = "CRC32" then
        match crcLoop stop chunks 0 0 with
        | none => .ret none
        | some crc => .ret (some (pyFormatHex08 (crc &&& 0xFFFFFFFF)))
      else
        match hashLoop stop chunks [] 0 with
        | none => .ret none
        | some absorbed => .ret (some (digestOf algorithm absorbed))
  else .raise ("Unsupported algorithm: " ++ algorithm)

/-- `HashGenerator.calculate_file_hash`: the `try:` body wrapped in the two
`except` clauses (lines 120-125), both of which print and return `None`. -/
def calculate_file_hash (supported : List String) (digestOf : String → List Nat → String)
    (stop : Nat → Bool) (algorithm : String)
    (file : Except String (List (List Nat))) : Option String :=
  match calcBody supported digestOf stop algorithm file with
  | .ret v => v
  | .raise _ => none

/-! ## Concurrent scan scheduler: `scan_location` (`main.py` lines 127-184) -/

/-- Outcome of `future.result()` for one submitted file: the value returned
by `calculate_file_hash`, or a raised exception's message. -/
inductive JobResult where
  | value (v : Option String)
  | exn (e : String)
deriving DecidableEq

/-- Mutable state of the completion-collection loop of `scan_location`:
the `results` dict (as an insertion-ordered association list over the
distinct walked paths), the `error_files` list, the `completed_files`
counter, and the trace of `progress_callback(completed, total, path)`
invocations. -/
structure ScanState where
  results : List (String × String)
  errors : List String
  completed : Nat
  calls : List (Nat × Nat × String)
deriving DecidableEq

/-- The initial scan state. -/
def initScan : ScanState := ⟨[], [], 0, []⟩

/-- Processing of one completed future (lines 169-182): a truthy hash goes
to `results`, a falsy one (`None` or `""`) appends the path to
`error_files`, an exception appends an annotated entry; then
`completed_files` is incremented and the progress callback fires. -/
def scanStep (total : Nat) (s : ScanState) (c : String × JobResult) : ScanState :=
  match c.2 with
  | .value (some h) =>
    if h = "" then
      { s with errors := s.errors ++ [c.1], completed := s.completed + 1,
               calls := s.calls ++ [(s.completed + 1, total, c.1)] }
    else
      { s with results := s.results ++ [(c.1, h)], completed := s.completed + 1,
               calls := s.calls ++ [(s.completed + 1, total, c.1)] }
  | .value none =>
    { s with errors := s.errors ++ [c.1], completed := s.completed + 1,
             calls := s.calls ++ [(s.completed + 1, total, c.1)] }
  | .exn e =>
    { s with errors := s.errors ++ [c.1 ++ " - Error: " ++ e], completed := s.completed + 1,
             calls := s.calls ++ [(s.completed + 1, total, c.1)] }

/-- The `for future in as_completed(...)` loop (lines 165-182): at the top
of each iteration the stop event is checked and the loop breaks when it is
set; otherwise the completed future is processed.  `stop i` is the flag
value observed when handling the i-th completion. -/
def scanLoop (stop : Nat → Bool) (total : Nat) :
    List (String × JobResult) → ScanState → ScanState
  | [], s => s
  | c :: rest, s =>
    if stop s.completed then s
    else scanLoop stop total rest (scanStep total s c)

/-- `HashGenerator.scan_location` from the point where the walked file list
has been submitted: `completions` is the per-file job outcome sequence in
`as_completed` order.  The function always returns normally (every
exception from a worker is caught inside the loop), which models the
"raises no exception" part of the scheduler contract. -/
def scan_location_run (stop : Nat → Bool) (completions : List (String × JobResult)) : ScanState :=
  scanLoop stop completions.length completions initScan

/-- The callback trace consisting of exactly one
`(completed, total, path)` triple per listed path, in order, with the
completed counter increasing from `c0 + 1`. -/
def progressCalls (c0 total : Nat) : List String → List (Nat × Nat × String)
  | [] => []
  | p :: ps => (c0 + 1, total, p) :: progressCalls (c0 + 1) total ps

/-! ## Manifest builder: `save_hashes` (`main.py` lines 186-249) -/

/-- Python dict insert-or-overwrite `d[k] = v` on an association list:
replaces the value in place when the key exists, appends otherwise. -/
def dictInsert {α : Type} (fields : List (String × α)) (k : String) (v : α) :
    List (String × α) :=
  if fields.any (fun p => p.1 == k) then
    fields.map (fun p => if p.1 == k then (k, v) else p)
  else fields ++ [(k, v)]

/-- The `data` dict built by `save_hashes` before `json.dump` (lines
191-227).  `relOf` models `os.path.relpath(file_path, base_path)` with the
`ValueError` fallback to `file_path`; `statOf` models `os.stat` (`none`
when it raises, in which case size and mtime default to 0). -/
def save_hashes (hash_data : List (String × String)) (error_files : List String)
    (algorithm scan_loc timestamp : String) (relOf : String → String)
    (statOf : String → Option (Int × Int)) : Manifest :=
  { metadata :=
      { algorithm := algorithm, scan_location := scan_loc, timestamp := timestamp,
        total_files := Int.ofNat hash_data.length,
        error_files := Int.ofNat error_files.length,
        application := "File Hash Generator v2.0" },
    hashes := hash_data.foldl (fun acc p =>
      dictInsert acc (relOf p.1)
        { hash := p.2, full_path := p.1,
          size := ((statOf p.1).map Prod.fst).getD 0,
          modified := ((statOf p.1).map Prod.snd).getD 0 }) [],
    errors := error_files }

/-! ## Verifier: `verify_integrity` (`main.py` lines 267-333) -/

/-- Per-path verification outcome strings. -/
inductive Outcome where
  | MATCH | MISMATCH | FILE_NOT_FOUND | READ_ERROR | VERIFICATION_ERROR
deriving DecidableEq

/-- Entry of the `corrupted_files` list (lines 318-324). -/
structure CorruptionRecord where
  path : String
  relative_path : String
  stored_hash : String
  current_hash : String
  algorithm : String
deriving DecidableEq

/-- Mutable state of the verification loop: the `results` outcome dict
(association list over the manifest's unique relative paths), the
corruption records, the error strings, the `completed_files` counter and
the progress-callback trace. -/
structure VerifyState where
  results : List (String × Outcome)
  corrupted : List CorruptionRecord
  errors : List String
  completed : Nat
  calls : List (Nat × Nat × String)
deriving DecidableEq

/-- The initial verification state. -/
def initVerify : VerifyState := ⟨[], [], [], 0, []⟩

/-- Python truthiness of an optional string: `None` and `""` are falsy. -/
def pyTruthyOptStr : Option String → Bool
  | none => false
  | some s => s ≠ ""

/-- `os.path.join(a, b)` for POSIX paths: an absolute `b` replaces `a`;
otherwise a separator is inserted unless `a` is empty or already ends in
one. -/
def osPathJoin (a b : String) : String :=
  if b.startsWith "/" then b
  else if a = "" || a.endsWith "/" then a ++ b
  else a ++ "/" ++ b

/-- The `current_path` resolution of `verify_integrity` (lines 290-297):
first-match-wins over (1) truthy `base_path` joined with the relative path
when that exists, (2) the stored `full_path` when it exists, (3) the
relative path itself when it exists.  `fs p` tells whether
`os.path.exists(p)` holds. -/
def resolvePath (fs : String → Bool) (base_path : Option String)
    (rel_path full_path : String) : Option String :=
  if pyTruthyOptStr base_path && fs (osPathJoin (base_path.getD "") rel_path) then
    some (osPathJoin (base_path.getD "") rel_path)
  else if fs full_path then some full_path
  else if fs rel_path then some rel_path
  else none

/-- Processing of one manifest entry by `verify_integrity` (lines 283-331).
`ch current algorithm` is the oracle for the nested
`self.calculate_file_hash(current_path, algorithm)` call: it returns the
optional digest, or (`Except.error`) raises — the event the surrounding
`try`/`except` classifies as `VERIFICATION_ERROR`. -/
def verifyStep (fs : String → Bool) (ch : String → String → Except String (Option String))
    (base_path : Option String) (algorithm : String) (total : Nat)
    (s : VerifyState) (entry : String × FileRecord) : VerifyState :=
  let rel := entry.1
  let stored := entry.2.hash
  match resolvePath fs base_path rel entry.2.full_path with
  | none =>
    { s with results := s.results ++ [(rel, Outcome.FILE_NOT_FOUND)],
             errors := s.errors ++ [rel ++ " - File not found"],
             completed := s.completed + 1,
             calls := s.calls ++ [(s.completed + 1, total, rel)] }
  | some current =>
    if current = "" then
      { s with results := s.results ++ [(rel, Outcome.FILE_NOT_FOUND)],
               errors := s.errors ++ [rel ++ " - File not found"],
               completed := s.completed + 1,
               calls := s.calls ++ [(s.completed + 1, total, rel)] }
    else
      match ch current algorithm with
      | .error e =>
        { s with results := s.results ++ [(rel, Outcome.VERIFICATION_ERROR)],
                 errors := s.errors ++ [rel ++ " - Verification error: " ++ e],
                 completed := s.completed + 1,
                 calls := s.calls ++ [(s.completed + 1, total, current)] }
      | .ok none =>
        { s with results := s.results ++ [(rel, Outcome.READ_ERROR)],
                 errors := s.errors ++ [rel ++ " - Unable to read file"],
                 completed := s.completed + 1,
                 calls := s.calls ++ [(s.completed + 1, total, current)] }
      | .ok (some cur) =>
        if cur = stored then
          { s with results := s.results ++ [(rel, Outcome.MATCH)],
                   completed := s.completed + 1,
                   calls := s.calls ++ [(s.completed + 1, total, current)] }
        else
          { s with results := s.results ++ [(rel, Outcome.MISMATCH)],
                   corrupted := s.corrupted ++
                     [⟨current, rel, stored, cur, algorithm⟩],
                   completed := s.completed + 1,
                   calls := s.calls ++ [(s.completed + 1, total, current)] }

/-- The `for rel_path, file_info in hashes.items()` loop with its
top-of-iteration stop-event break (lines 283-284). -/
def verifyLoop (stop : Nat → Bool) (fs : String → Bool)
    (ch : String → String → Except String (Option String))
    (base_path : Option String) (algorithm : String) (total : Nat) :
    List (String × FileRecord) → VerifyState → VerifyState
  | [], s => s
  | e :: rest, s =>
    if stop s.completed then s
    else verifyLoop stop fs ch base_path algorithm total rest
      (verifyStep fs ch base_path algorithm total s e)

/-- `HashGenerator.verify_integrity` from the point where the manifest has
been loaded: iterates the entry list of the `hashes` mapping. -/
def verify_integrity (stop : Nat → Bool) (fs : String → Bool)
    (ch : String → String → Except String (Option String))
    (base_path : Option String) (algorithm : String)
    (hashes : List (String × FileRecord)) : VerifyState :=
  verifyLoop stop fs ch base_path algorithm hashes.length hashes initVerify

/-! ## Verification report: `save_verification_report` (lines 335-358) -/

/-- The `summary` section of the report; the field `matches'` carries the
JSON key `matches` (`matches` is reserved in Lean). -/
structure VSummary where
  matches' : Nat
  mismatches : Nat
  not_found : Nat
  read_errors : Nat
  verification_errors : Nat
deriving DecidableEq

/-- The `metadata` section of the report. -/
structure VReportMeta where
  verification_time : String
  source_hash_file : String
  total_files_checked : Nat
  corrupted_files : Nat
  error_files : Nat
  application : String
deriving DecidableEq

/-- The whole report value passed to `json.dump`. -/
structure VerificationReport where
  metadata : VReportMeta
  summary : VSummary
  detailed_results : List (String × Outcome)
  corrupted_files : List CorruptionRecord
  errors : List String
deriving DecidableEq

/-- The `report` dict of `save_verification_report` (lines 339-358), whose
summary counts are `sum(1 for r in results.values() if r == ...)`. -/
def save_verification_report (results : List (String × Outcome))
    (corrupted : List CorruptionRecord) (errors : List String)
    (time src : String) : VerificationReport :=
  { metadata :=
      { verification_time := time, source_hash_file := src,
        total_files_checked := results.length,
        corrupted_files := corrupted.length,
        error_files := errors.length,
        application := "File Hash Generator v2.0" },
    summary :=
      { matches' := (results.map Prod.snd).countP (· == Outcome.MATCH),
        mismatches := (results.map Prod.snd).countP (· == Outcome.MISMATCH),
        not_found := (results.map Prod.snd).countP (· == Outcome.FILE_NOT_FOUND),
        read_errors := (results.map Prod.snd).countP (· == Outcome.READ_ERROR),
        verification_errors := (results.map Prod.snd).countP (· == Outcome.VERIFICATION_ERROR) },
    detailed_results := results,
    corrupted_files := corrupted,
    errors := errors }

/-! ## Helper lemmas: CRC-32 and hex formatting -/

theorem zlib_crc32_append (a b : List Nat) (v : Nat) :
    zlib_crc32 (a ++ b) v = zlib_crc32 b (zlib_crc32 a v) := by
  unfold zlib_crc32
  rw [List.foldl_append, Nat.xor_cancel_right]

theorem foldl_zlib_eq_flatten (chunks : List (List Nat)) (v : Nat) :
    chunks.foldl (fun c ch => zlib_crc32 ch c) v = zlib_crc32 chunks.flatten v := by
  induction chunks generalizing v with
  | nil => simp [zlib_crc32, Nat.xor_cancel_right]
  | cons ch rest ih =>
    simp only [List.foldl_cons, List.flatten_cons, zlib_crc32_append]
    exact ih (zlib_crc32 ch v)

theorem crcLoop_no_stop (chunks : List (List Nat)) (crc i : Nat) :
    crcLoop (fun _ => false) chunks crc i
      = some (chunks.foldl (fun c ch => zlib_crc32 ch c) crc) := by
  induction chunks generalizing crc i with
  | nil => rfl
  | cons ch rest ih => simpa [crcLoop] using ih (zlib_crc32 ch crc) (i + 1)

theorem crcRound_lt (c : Nat) (h : c < 2 ^ 32) : crcRound c < 2 ^ 32 := by
  unfold crcRound
  split
  · exact Nat.xor_lt_two_pow (by omega) (by norm_num)
  · omega

theorem crcRound_iter_lt (k c : Nat) (h : c < 2 ^ 32) : crcRound^[k] c < 2 ^ 32 := by
  induction k generalizing c with
  | zero => simpa using h
  | succ k ih =>
    rw [Function.iterate_succ_apply]
    exact ih _ (crcRound_lt c h)

theorem crcTableEntry_lt (b : Nat) (h : b < 2 ^ 32) : crcTableEntry b < 2 ^ 32 :=
  crcRound_iter_lt 8 b h

theorem crc32Step_lt (s b : Nat) (hs : s < 2 ^ 32) : crc32Step s b < 2 ^ 32 := by
  unfold crc32Step
  refine Nat.xor_lt_two_pow (by omega) (crcTableEntry_lt _ ?_)
  calc (s ^^^ b) % 256 < 256 := Nat.mod_lt _ (by norm_num)
    _ < 2 ^ 32 := by norm_num

theorem foldl_crc32Step_lt (data : List Nat) (s : Nat) (hs : s < 2 ^ 32) :
    data.foldl crc32Step s < 2 ^ 32 := by
  induction data generalizing s with
  | nil => simpa using hs
  | cons b rest ih => exact ih _ (crc32Step_lt s b hs)

theorem zlib_crc32_lt (data : List Nat) (v : Nat) (hv : v < 2 ^ 32) :
    zlib_crc32 data v < 2 ^ 32 := by
  unfold zlib_crc32
  exact Nat.xor_lt_two_pow
    (foldl_crc32Step_lt data _ (Nat.xor_lt_two_pow hv (by norm_num))) (by norm_num)

theorem mask32_eq_of_lt (n : Nat) (h : n < 2 ^ 32) : n &&& 0xFFFFFFFF = n := by
  have h1 : (0xFFFFFFFF : Nat) = 2 ^ 32 - 1 := by norm_num
  rw [h1, Nat.and_pow_two_sub_one_eq_mod, Nat.mod_eq_of_lt h]

theorem natToHex_of_lt (n : Nat) (h : n < 16) : natToHex n = [Nat.digitChar n] := by
  rw [natToHex]
  simp [h]

theorem natToHex_of_ge (n : Nat) (h : ¬ n < 16) :
    natToHex n = natToHex (n / 16) ++ [Nat.digitChar (n % 16)] := by
  conv_lhs => rw [natToHex]
  simp [h]

theorem natToHex_length_le (k : Nat) : ∀ n, n < 16 ^ (k + 1) → (natToHex n).length ≤ k + 1 := by
  induction k with
  | zero =>
    intro n hn
    rw [natToHex_of_lt n (by simpa using hn)]
    simp
  | succ k ih =>
    intro n hn
    by_cases h : n < 16
    · rw [natToHex_of_lt n h]; simp
    · rw [natToHex_of_ge n h]
      have hd : n / 16 < 16 ^ (k + 1) := by
        rw [Nat.div_lt_iff_lt_mul (by norm_num)]
        calc n < 16 ^ (k + 2) := hn
          _ = 16 ^ (k + 1) * 16 := by ring
      have := ih (n / 16) hd
      simp only [List.length_append, List.length_cons, List.length_nil]
      omega

theorem hexDigitVal_digitChar (m : Nat) (h : m < 16) :
    hexDigitVal (Nat.digitChar m) = m := by
  interval_cases m <;> rfl

theorem digitChar_mem_hexAlphabet (m : Nat) (h : m < 16) :
    Nat.digitChar m ∈ hexAlphabet := by
  interval_cases m <;> decide

theorem hexValue_append_digit (cs : List Char) (c : Char) :
    hexValue (cs ++ [c]) = 16 * hexValue cs + hexDigitVal c := by
  unfold hexValue
  rw [List.foldl_append]
  rfl

theorem hexValue_natToHex (n : Nat) : hexValue (natToHex n) = n := by
  induction n using Nat.strong_induction_on with
  | _ n ih =>
    by_cases h : n < 16
    · rw [natToHex_of_lt n h]
      unfold hexValue
      simp [hexDigitVal_digitChar n h]
    · rw [natToHex_of_ge n h, hexValue_append_digit]
      rw [ih (n / 16) (Nat.div_lt_self (by omega) (by omega))]
      rw [hexDigitVal_digitChar (n % 16) (Nat.mod_lt _ (by norm_num))]
      omega

theorem natToHex_all_hex (n : Nat) :
    (natToHex n).all (fun c => hexAlphabet.contains c) = true := by
  induction n using Nat.strong_induction_on with
  | _ n ih =>
    by_cases h : n < 16
    · rw [natToHex_of_lt n h]
      simp [digitChar_mem_hexAlphabet n h]
    · rw [natToHex_of_ge n h]
      simp only [List.all_append, Bool.and_eq_true]
      refine ⟨ih (n / 16) (Nat.div_lt_self (by omega) (by omega)), ?_⟩
      simp [digitChar_mem_hexAlphabet (n % 16) (Nat.mod_lt _ (by norm_num))]

theorem hexValue_replicate_zero_append (z : Nat) (cs : List Char) :
    hexValue (List.replicate z '0' ++ cs) = hexValue cs := by
  induction z with
  | zero => simp
  | succ z ih =>
    rw [List.replicate_succ, List.cons_append]
    unfold hexValue at ih ⊢
    simpa [hexDigitVal] using ih

theorem pyFormatHex08_spec (n : Nat) (h : n < 2 ^ 32) :
    (pyFormatHex08 n).length = 8
      ∧ (pyFormatHex08 n).data.all (fun c => hexAlphabet.contains c) = true
      ∧ hexValue (pyFormatHex08 n).data = n := by
  have hlen : (natToHex n).length ≤ 8 := by
    refine natToHex_length_le 7 n ?_
    calc n < 2 ^ 32 := h
      _ = 16 ^ (7 + 1) := by norm_num
  refine ⟨?_, ?_, ?_⟩
  · show (List.replicate (8 - (natToHex n).length) '0' ++ natToHex n).length = 8
    simp only [List.length_append, List.length_replicate]
    omega
  · show (List.replicate (8 - (natToHex n).length) '0' ++ natToHex n).all _ = true
    simp only [List.all_append, Bool.and_eq_true]
    constructor
    · have h0 : '0' ∈ hexAlphabet := by decide
      simp [h0]
    · exact natToHex_all_hex n
  · show hexValue (List.replicate (8 - (natToHex n).length) '0' ++ natToHex n) = n
    rw [hexValue_replicate_zero_append, hexValue_natToHex]

/-! ## Helper lemmas: manifest codec round-trip -/

theorem decodeFileRecord_encode (r : FileRecord) :
    decodeFileRecord (encodeFileRecord r) = some r := rfl

theorem decodeMeta_encode (m : ManifestMeta) :
    decodeMeta (encodeMeta m) = some m := rfl

theorem decodeHashEntries_encode (xs : List (String × FileRecord)) :
    decodeHashEntries (xs.map (fun p => (p.1, encodeFileRecord p.2))) = some xs := by
  induction xs with
  | nil => rfl
  | cons x rest ih =>
    obtain ⟨k, r⟩ := x
    simp only [List.map_cons, decodeHashEntries, decodeFileRecord_encode, ih]
    rfl

theorem decodeErrorList_encode (es : List String) :
    decodeErrorList (es.map Json.str) = some es := by
  induction es with
  | nil => rfl
  | cons e rest ih =>
    simp only [List.map_cons, decodeErrorList, ih]
    rfl

theorem decodeManifest_encode (m : Manifest) :
    decodeManifest (encodeManifest m) = some m := by
  show (decodeHashEntries (m.hashes.map (fun p => (p.1, encodeFileRecord p.2)))).bind
      (fun hs => (decodeErrorList (m.errors.map Json.str)).bind
        (fun es => some ⟨m.metadata, hs, es⟩)) = some m
  rw [decodeHashEntries_encode, decodeErrorList_encode]
  rfl

theorem pyFormatHex08_zero : pyFormatHex08 0 = "00000000" := by
  unfold pyFormatHex08
  rw [natToHex_of_lt 0 (by norm_num)]
  rfl

/-! ## Helper lemmas: scan scheduler -/

theorem scanStep_spec (total : Nat) (s : ScanState) (c : String × JobResult) :
    (scanStep total s c).calls = s.calls ++ [(s.completed + 1, total, c.1)]
      ∧ (scanStep total s c).completed = s.completed + 1
      ∧ (scanStep total s c).results.length + (scanStep total s c).errors.length
          = s.results.length + s.errors.length + 1 := by
  obtain ⟨p, j⟩ := c
  cases j with
  | value v =>
    cases v with
    | none => simp [scanStep]; omega
    | some h => by_cases h0 : h = "" <;> simp [scanStep, h0] <;> omega
  | exn e => simp [scanStep]; omega

theorem scanLoop_length_le (stop : Nat → Bool) (total : Nat) :
    ∀ (l : List (String × JobResult)) (s : ScanState),
      (scanLoop stop total l s).results.length + (scanLoop stop total l s).errors.length
        ≤ s.results.length + s.errors.length + l.length := by
  intro l
  induction l with
  | nil => intro s; simp [scanLoop]
  | cons c rest ih =>
    intro s
    simp only [scanLoop]
    split
    · simp
    · have h1 := (scanStep_spec total s c).2.2
      have h2 := ih (scanStep total s c)
      simp only [List.length_cons]
      omega

theorem scanLoop_calls_take (stop : Nat → Bool) (total : Nat) :
    ∀ (l : List (String × JobResult)) (s : ScanState),
      ∃ k, k ≤ l.length
        ∧ (scanLoop stop total l s).calls
            = s.calls ++ progressCalls s.completed total ((l.take k).map Prod.fst) := by
  intro l
  induction l with
  | nil =>
    intro s
    exact ⟨0, by simp [scanLoop, progressCalls]⟩
  | cons c rest ih =>
    intro s
    simp only [scanLoop]
    split
    · exact ⟨0, by simp [progressCalls]⟩
    · obtain ⟨k, hk, hcalls⟩ := ih (scanStep total s c)
      refine ⟨k + 1, by simpa using Nat.succ_le_succ hk, ?_⟩
      rw [hcalls, (scanStep_spec total s c).1, (scanStep_spec total s c).2.1]
      simp [List.take_succ_cons, progressCalls]

theorem scanLoop_no_stop_calls (total : Nat) :
    ∀ (l : List (String × JobResult)) (s : ScanState),
      (scanLoop (fun _ => false) total l s).calls
        = s.calls ++ progressCalls s.completed total (l.map Prod.fst) := by
  intro l
  induction l with
  | nil => intro s; simp [scanLoop, progressCalls]
  | cons c rest ih =>
    intro s
    rw [show scanLoop (fun _ => false) total (c :: rest) s
          = scanLoop (fun _ => false) total rest (scanStep total s c) from rfl]
    rw [ih (scanStep total s c), (scanStep_spec total s c).1, (scanStep_spec total s c).2.1]
    simp [progressCalls]

theorem scanLoop_no_stop_length (total : Nat) :
    ∀ (l : List (String × JobResult)) (s : ScanState),
      (scanLoop (fun _ => false) total l s).results.length
          + (scanLoop (fun _ => false) total l s).errors.length
        = s.results.length + s.errors.length + l.length := by
  intro l
  induction l with
  | nil => intro s; simp [scanLoop]
  | cons c rest ih =>
    intro s
    rw [show scanLoop (fun _ => false) total (c :: rest) s
          = scanLoop (fun _ => false) total rest (scanStep total s c) from rfl]
    have h1 := (scanStep_spec total s c).2.2
    have h2 := ih (scanStep total s c)
    simp only [List.length_cons]
    omega

/-! ## Helper lemmas: verification loop -/

theorem verifyStep_results (fs : String → Bool)
    (ch : String → String → Except String (Option String))
    (base_path : Option String) (algorithm : String) (total : Nat)
    (s : VerifyState) (e : String × FileRecord) :
    ∃ o, (verifyStep fs ch base_path algorithm total s e).results = s.results ++ [(e.1, o)]
      ∧ (verifyStep fs ch base_path algorithm total s e).completed = s.completed + 1 := by
  rcases hcp : resolvePath fs base_path e.1 e.2.full_path with _ | current
  · exact ⟨Outcome.FILE_NOT_FOUND, by simp [verifyStep, hcp], by simp [verifyStep, hcp]⟩
  · by_cases hc : current = ""
    · exact ⟨Outcome.FILE_NOT_FOUND, by simp [verifyStep, hcp, hc],
        by simp [verifyStep, hcp, hc]⟩
    · rcases hch : ch current algorithm with msg | v
      · exact ⟨Outcome.VERIFICATION_ERROR, by simp [verifyStep, hcp, hc, hch],
          by simp [verifyStep, hcp, hc, hch]⟩
      · rcases v with _ | cur
        · exact ⟨Outcome.READ_ERROR, by simp [verifyStep, hcp, hc, hch],
            by simp [verifyStep, hcp, hc, hch]⟩
        · by_cases hm : cur = e.2.hash
          · exact ⟨Outcome.MATCH, by simp [verifyStep, hcp, hc, hch, hm],
              by simp [verifyStep, hcp, hc, hch, hm]⟩
          · exact ⟨Outcome.MISMATCH, by simp [verifyStep, hcp, hc, hch, hm],
              by simp [verifyStep, hcp, hc, hch, hm]⟩

theorem verifyLoop_keys (stop : Nat → Bool) (fs : String → Bool)
    (ch : String → String → Except String (Option String))
    (base_path : Option String) (algorithm : String) (total : Nat) :
    ∀ (l : List (String × FileRecord)) (s : VerifyState),
      ∃ k, k ≤ l.length
        ∧ (verifyLoop stop fs ch base_path algorithm total l s).results.map Prod.fst
            = s.results.map Prod.fst ++ (l.map Prod.fst).take k
        ∧ (verifyLoop stop fs ch base_path algorithm total l s).completed = s.completed + k := by
  intro l
  induction l with
  | nil =>
    intro s
    exact ⟨0, by simp [verifyLoop]⟩
  | cons e rest ih =>
    intro s
    simp only [verifyLoop]
    split
    · exact ⟨0, by simp⟩
    · obtain ⟨o, hres, hcomp⟩ := verifyStep_results fs ch base_path algorithm total s e
      obtain ⟨k, hk, hkeys, hkcomp⟩ := ih (verifyStep fs ch base_path algorithm total s e)
      refine ⟨k + 1, by simpa using Nat.succ_le_succ hk, ?_, ?_⟩
      · rw [hkeys, hres]
        simp [List.take_succ_cons]
      · rw [hkcomp, hcomp]
        omega

/-! ## Helper lemmas: dict building in `save_hashes` -/

theorem dictInsert_not_mem {α : Type} (fields : List (String × α)) (k : String) (v : α)
    (h : k ∉ fields.map Prod.fst) : dictInsert fields k v = fields ++ [(k, v)] := by
  unfold dictInsert
  rw [if_neg]
  simp only [List.any_eq_true, beq_iff_eq, not_exists, not_and]
  intro p hp
  intro hpk
  exact h (hpk ▸ List.mem_map_of_mem Prod.fst hp)

theorem foldl_dictInsert_keys (relOf : String → String)
    (mkRec : String × String → FileRecord) :
    ∀ (l : List (String × String)) (acc : List (String × FileRecord)),
      (acc.map Prod.fst ++ l.map (fun p => relOf p.1)).Nodup →
      (l.foldl (fun acc p => dictInsert acc (relOf p.1) (mkRec p)) acc).map Prod.fst
        = acc.map Prod.fst ++ l.map (fun p => relOf p.1) := by
  intro l
  induction l with
  | nil => intro acc _; simp
  | cons p rest ih =>
    intro acc hnd
    simp only [List.foldl_cons]
    have hmem : relOf p.1 ∉ acc.map Prod.fst := by
      intro hmem
      have : (relOf p.1) ∈ acc.map Prod.fst ++ (p :: rest).map (fun q => relOf q.1) :=
        List.mem_append_left _ hmem
      have hdup : ¬ (acc.map Prod.fst ++ (p :: rest).map (fun q => relOf q.1)).Nodup := by
        intro hn
        have hdisj := List.disjoint_of_nodup_append hn
        exact hdisj hmem (by simp)
      exact hdup hnd
    rw [dictInsert_not_mem acc (relOf p.1) (mkRec p) hmem]
    have hnd' : ((acc ++ [(relOf p.1, mkRec p)]).map Prod.fst
        ++ rest.map (fun q => relOf q.1)).Nodup := by
      simpa [List.append_assoc] using hnd
    rw [ih (acc ++ [(relOf p.1, mkRec p)]) hnd']
    simp

/-! ## Claim theorems -/

/-- Claim C5 (confirmed): codec round-trip.  Writing a manifest value with
`save_hashes`'s serialization and reading it back succeeds: the persisted
tree passes `load_hashes`'s validation unchanged, and the field-wise readers
recover a manifest equal to the original, for every manifest value. -/
theorem manifest_roundtrip (m : Manifest) :
    load_hashes (some (encodeManifest m)) = some (encodeManifest m)
      ∧ decodeManifest (encodeManifest m) = some m :=
  ⟨rfl, decodeManifest_encode m⟩

/-- Claim C3, counterexample: a persisted manifest whose top level contains
`metadata` and `hashes` but no `errors` section loads successfully, so the
load does not validate the presence of every documented section. -/
theorem load_hashes_missing_errors_counterexample :
    (load_hashes (some (Json.obj [("metadata", Json.obj []), ("hashes", Json.obj [])]))).isSome
        = true
      ∧ (Json.obj [("metadata", Json.obj []), ("hashes", Json.obj [])]).getKey "errors"
          = none :=
  ⟨rfl, rfl⟩

/-- Claim C3 as amended (proved): `load_hashes` validates exactly that the
top-level dict contains the `metadata` and `hashes` keys; the `errors`
section is not required.  A parse failure, or a dict missing `metadata` or
`hashes`, fails the load (returns `None`), fatal to the load operation. -/
theorem load_hashes_validation_amended (fields : List (String × Json)) :
    (load_hashes (some (Json.obj fields))).isSome
        = (fields.any (fun p => p.1 == "metadata") && fields.any (fun p => p.1 == "hashes"))
      ∧ load_hashes none = none := by
  refine ⟨?_, rfl⟩
  cases h : fields.any (fun p => p.1 == "metadata") && fields.any (fun p => p.1 == "hashes") <;>
    simp [load_hashes, h]

/-- Claim C1, counterexample: requesting the unavailable algorithm
`"UNKNOWN"` does raise internally, but `calculate_file_hash`'s own blanket
`except` converts the failure into a per-file `None` result — the caller
receives `None` (recorded as a failed path), not a surfaced
`UnsupportedAlgorithm` error. -/
theorem calculate_file_hash_unknown_returns_none :
    calculate_file_hash ["CRC32", "SHA256"] (fun _ _ => "") (fun _ => false) "UNKNOWN"
        (.ok [[1, 2, 3]]) = none
      ∧ calcBody ["CRC32", "SHA256"] (fun _ _ => "") (fun _ => false) "UNKNOWN"
          (.ok [[1, 2, 3]]) = .raise "Unsupported algorithm: UNKNOWN" :=
  ⟨rfl, rfl⟩

/-- Claim C1 as amended (proved): for an algorithm outside the available
set, the `try:` body raises `ValueError("Unsupported algorithm: ...")`
before any file I/O occurs (the outcome does not depend on the file at
all), but the function's own exception handlers convert this into a
per-file `None` result returned to the caller. -/
theorem unsupported_algorithm_amended (supported : List String)
    (digestOf : String → List Nat → String) (stop : Nat → Bool) (algorithm : String)
    (file file' : Except String (List (List Nat))) (h : algorithm ∉ supported) :
    calcBody supported digestOf stop algorithm file
        = .raise ("Unsupported algorithm: " ++ algorithm)
      ∧ calculate_file_hash supported digestOf stop algorithm file = none
      ∧ calculate_file_hash supported digestOf stop algorithm file
          = calculate_file_hash supported digestOf stop algorithm file' := by
  have hb : ∀ f : Except String (List (List Nat)),
      calcBody supported digestOf stop algorithm f
        = .raise ("Unsupported algorithm: " ++ algorithm) := by
    intro f
    unfold calcBody
    rw [if_neg h]
  refine ⟨hb file, ?_, ?_⟩
  · unfold calculate_file_hash
    rw [hb file]
  · unfold calculate_file_hash
    rw [hb file, hb file']

theorem unsupported_algorithm_amended_witness :
    "UNKNOWN" ∉ ["CRC32", "SHA256"]
      ∧ (calcBody ["CRC32", "SHA256"] (fun _ _ => "") (fun _ => false) "UNKNOWN" (.ok [])
            = .raise ("Unsupported algorithm: " ++ "UNKNOWN")
          ∧ calculate_file_hash ["CRC32", "SHA256"] (fun _ _ => "") (fun _ => false)
              "UNKNOWN" (.ok []) = none
          ∧ calculate_file_hash ["CRC32", "SHA256"] (fun _ _ => "") (fun _ => false)
              "UNKNOWN" (.ok [])
              = calculate_file_hash ["CRC32", "SHA256"] (fun _ _ => "") (fun _ => false)
                "UNKNOWN" (.error "boom")) :=
  ⟨by decide,
    unsupported_algorithm_amended ["CRC32", "SHA256"] (fun _ _ => "") (fun _ => false)
      "UNKNOWN" (.ok []) (.error "boom") (by decide)⟩

/-- Claim C7 (confirmed): whatever the cancellation flag does during the
completion loop, the scan returns normally (the model is a total function:
every per-file exception is handled inside the loop) and the result map
plus failure list together cover at most the number of submitted paths. -/
theorem scan_cancellation_safe (stop : Nat → Bool)
    (completions : List (String × JobResult)) :
    (scan_location_run stop completions).results.length
        + (scan_location_run stop completions).errors.length ≤ completions.length := by
  have h := scanLoop_length_le stop completions.length completions initScan
  simpa [scan_location_run, initScan] using h

/-- Claim C2, counterexample: with two submitted paths and the cancellation
flag raised after the first completion is processed, the progress callback
fires only once — not once per input path as the claim requires even under
cancellation. -/
theorem scan_progress_cancel_counterexample :
    (scan_location_run (fun i => decide (1 ≤ i))
        [("a", JobResult.value (some "h1")), ("b", JobResult.value (some "h2"))]).calls
        = [(1, 2, "a")]
      ∧ [("a", JobResult.value (some "h1")), ("b", JobResult.value (some "h2"))].length
          = 2 :=
  ⟨rfl, rfl⟩

/-- Claim C2 as amended (proved): the progress callback is invoked exactly
once per processed completion, in completion order, with the completed
counter incrementing — including for failed files — but only for a prefix
of the input (the completions handled before the stop flag is observed);
when the flag is never set, every input path gets exactly one invocation. -/
theorem scan_progress_amended (stop : Nat → Bool)
    (completions : List (String × JobResult)) :
    (∃ k, k ≤ completions.length
        ∧ (scan_location_run stop completions).calls
            = progressCalls 0 completions.length ((completions.take k).map Prod.fst))
      ∧ (scan_location_run (fun _ => false) completions).calls
          = progressCalls 0 completions.length (completions.map Prod.fst) := by
  constructor
  · obtain ⟨k, hk, hc⟩ := scanLoop_calls_take stop completions.length completions initScan
    exact ⟨k, hk, by simpa [scan_location_run, initScan] using hc⟩
  · have h := scanLoop_no_stop_calls completions.length completions initScan
    simpa [scan_location_run, initScan] using h

/-- Claim C9 (confirmed): for every available algorithm, digesting an empty
file (no chunks are ever read, so the loop body never runs and the hasher
is finalized in its initial state) succeeds with the digest of the empty
byte string — `digestOf algorithm []` for streaming hashers, `"00000000"`
for the CRC32 special case — never `None` and never an error. -/
theorem empty_file_digest (supported : List String)
    (digestOf : String → List Nat → String) (stop : Nat → Bool) (algorithm : String)
    (h : algorithm ∈ supported) :
    calculate_file_hash supported digestOf stop algorithm (.ok [])
        = some (if algorithm = "CRC32" then "00000000" else digestOf algorithm [])
      ∧ calculate_file_hash supported digestOf stop algorithm (.ok []) ≠ none := by
  have h0 : (0 : Nat) &&& 0xFFFFFFFF = 0 := by decide
  have heq : calculate_file_hash supported digestOf stop algorithm (.ok [])
      = some (if algorithm = "CRC32" then "00000000" else digestOf algorithm []) := by
    unfold calculate_file_hash calcBody
    rw [if_pos h]
    by_cases halg : algorithm = "CRC32" <;>
      simp [halg, crcLoop, hashLoop, h0, pyFormatHex08_zero]
  exact ⟨heq, by rw [heq]; exact Option.some_ne_none _⟩

theorem empty_file_digest_witness :
    "CRC32" ∈ ["CRC32"]
      ∧ (calculate_file_hash ["CRC32"] (fun _ _ => "") (fun _ => false) "CRC32" (.ok [])
            = some "00000000"
          ∧ calculate_file_hash ["CRC32"] (fun _ _ => "") (fun _ => false) "CRC32" (.ok [])
              ≠ none) :=
  ⟨by decide, empty_file_digest ["CRC32"] (fun _ _ => "") (fun _ => false) "CRC32" (by decide)⟩

/-- Claim C8 (confirmed): with CRC32 selected and no cancellation, the
digest of a readable file is exactly the 32-bit zlib CRC of the file's
bytes (the running checksum over the chunks equals the checksum of the
concatenated bytes), masked to 32 bits and formatted as a zero-padded,
8-character, lowercase hexadecimal string whose numeric value is that
checksum. -/
theorem crc32_digest_format (supported : List String)
    (digestOf : String → List Nat → String) (chunks : List (List Nat))
    (h : "CRC32" ∈ supported) :
    calculate_file_hash supported digestOf (fun _ => false) "CRC32" (.ok chunks)
        = some (pyFormatHex08 (zlib_crc32 chunks.flatten 0 &&& 0xFFFFFFFF))
      ∧ zlib_crc32 chunks.flatten 0 &&& 0xFFFFFFFF = zlib_crc32 chunks.flatten 0
      ∧ (pyFormatHex08 (zlib_crc32 chunks.flatten 0)).length = 8
      ∧ (pyFormatHex08 (zlib_crc32 chunks.flatten 0)).data.all
          (fun c => hexAlphabet.contains c) = true
      ∧ hexValue (pyFormatHex08 (zlib_crc32 chunks.flatten 0)).data
          = zlib_crc32 chunks.flatten 0 := by
  have hlt : zlib_crc32 chunks.flatten 0 < 2 ^ 32 := zlib_crc32_lt _ 0 (by norm_num)
  have hmask := mask32_eq_of_lt _ hlt
  have hspec := pyFormatHex08_spec _ hlt
  refine ⟨?_, hmask, hspec.1, hspec.2.1, hspec.2.2⟩
  unfold calculate_file_hash calcBody
  rw [if_pos h]
  simp only [crcLoop_no_stop, foldl_zlib_eq_flatten]
  rfl

theorem crc32_digest_format_witness :
    "CRC32" ∈ ["CRC32"]
      ∧ (calculate_file_hash ["CRC32"] (fun _ _ => "") (fun _ => false) "CRC32"
            (.ok [[97], [98]])
            = some (pyFormatHex08 (zlib_crc32 [[97], [98]].flatten 0 &&& 0xFFFFFFFF))
          ∧ zlib_crc32 [[97], [98]].flatten 0 &&& 0xFFFFFFFF = zlib_crc32 [[97], [98]].flatten 0
          ∧ (pyFormatHex08 (zlib_crc32 [[97], [98]].flatten 0)).length = 8
          ∧ (pyFormatHex08 (zlib_crc32 [[97], [98]].flatten 0)).data.all
              (fun c => hexAlphabet.contains c) = true
          ∧ hexValue (pyFormatHex08 (zlib_crc32 [[97], [98]].flatten 0)).data
              = zlib_crc32 [[97], [98]].flatten 0) :=
  ⟨by decide, crc32_digest_format ["CRC32"] (fun _ _ => "") [[97], [98]] (by decide)⟩

/-- Claim C4 (confirmed): `verify_integrity` resolves the on-disk path of a
manifest entry by first-match-wins precedence — (1) a truthy base-path
override joined with the relative path if that exists, (2) the stored
absolute path if it exists, (3) the relative path itself if it exists —
and when none resolve, the entry's outcome is `FILE_NOT_FOUND`, a
"File not found" error entry is recorded, no corruption record is added,
and no digest is computed (the step's result does not depend on the digest
oracle at all). -/
theorem verify_resolution_precedence (fs : String → Bool)
    (ch ch' : String → String → Except String (Option String))
    (base_path : Option String) (algorithm : String) (total : Nat)
    (rel : String) (record : FileRecord) (s : VerifyState) :
    resolvePath fs base_path rel record.full_path
        = (if pyTruthyOptStr base_path && fs (osPathJoin (base_path.getD "") rel) then
             some (osPathJoin (base_path.getD "") rel)
           else if fs record.full_path then some record.full_path
           else if fs rel then some rel
           else none)
      ∧ (resolvePath fs base_path rel record.full_path = none →
          verifyStep fs ch base_path algorithm total s (rel, record)
              = { s with results := s.results ++ [(rel, Outcome.FILE_NOT_FOUND)],
                         errors := s.errors ++ [rel ++ " - File not found"],
                         completed := s.completed + 1,
                         calls := s.calls ++ [(s.completed + 1, total, rel)] }
            ∧ verifyStep fs ch base_path algorithm total s (rel, record)
                = verifyStep fs ch' base_path algorithm total s (rel, record)) := by
  refine ⟨rfl, fun hnone => ⟨?_, ?_⟩⟩ <;> simp [verifyStep, hnone]

theorem verify_resolution_precedence_witness :
    verifyStep (fun _ => false) (fun _ _ => Except.ok none) none "SHA256" 1 initVerify
        ("r", ⟨"h", "f", 0, 0⟩)
        = { initVerify with results := [("r", Outcome.FILE_NOT_FOUND)],
                            errors := ["r - File not found"], completed := 1,
                            calls := [(1, 1, "r")] }
      ∧ verifyStep (fun _ => false) (fun _ _ => Except.ok none) none "SHA256" 1 initVerify
          ("r", ⟨"h", "f", 0, 0⟩)
          = verifyStep (fun _ => false) (fun _ _ => Except.error "boom") none "SHA256" 1
            initVerify ("r", ⟨"h", "f", 0, 0⟩) :=
  (verify_resolution_precedence (fun _ => false) (fun _ _ => Except.ok none)
    (fun _ _ => Except.error "boom") none "SHA256" 1 "r" ⟨"h", "f", 0, 0⟩ initVerify).2 rfl

/-- Claim C6 (confirmed): in the verification report, each of the five
summary counts equals the number of paths in the outcome mapping carrying
that outcome, the detailed results are exactly the outcome mapping, and the
outcome mapping has exactly one entry per path considered: its keys are
precisely the processed prefix of the manifest's (unique) relative paths,
with no duplicates. -/
theorem verification_report_summary (stop : Nat → Bool) (fs : String → Bool)
    (ch : String → String → Except String (Option String)) (base_path : Option String)
    (algorithm : String) (hashes : List (String × FileRecord)) (time src : String)
    (hnd : (hashes.map Prod.fst).Nodup) :
    (save_verification_report (verify_integrity stop fs ch base_path algorithm hashes).results
          (verify_integrity stop fs ch base_path algorithm hashes).corrupted
          (verify_integrity stop fs ch base_path algorithm hashes).errors time
          src).summary.matches'
        = ((verify_integrity stop fs ch base_path algorithm hashes).results.filter
            (fun p => p.2 == Outcome.MATCH)).length
      ∧ (save_verification_report (verify_integrity stop fs ch base_path algorithm hashes).results
            (verify_integrity stop fs ch base_path algorithm hashes).corrupted
            (verify_integrity stop fs ch base_path algorithm hashes).errors time
            src).summary.mismatches
          = ((verify_integrity stop fs ch base_path algorithm hashes).results.filter
              (fun p => p.2 == Outcome.MISMATCH)).length
      ∧ (save_verification_report (verify_integrity stop fs ch base_path algorithm hashes).results
            (verify_integrity stop fs ch base_path algorithm hashes).corrupted
            (verify_integrity stop fs ch base_path algorithm hashes).errors time
            src).summary.not_found
          = ((verify_integrity stop fs ch base_path algorithm hashes).results.filter
              (fun p => p.2 == Outcome.FILE_NOT_FOUND)).length
      ∧ (save_verification_report (verify_integrity stop fs ch base_path algorithm hashes).results
            (verify_integrity stop fs ch base_path algorithm hashes).corrupted
            (verify_integrity stop fs ch base_path algorithm hashes).errors time
            src).summary.read_errors
          = ((verify_integrity stop fs ch base_path algorithm hashes).results.filter
              (fun p => p.2 == Outcome.READ_ERROR)).length
      ∧ (save_verification_report (verify_integrity stop fs ch base_path algorithm hashes).results
            (verify_integrity stop fs ch base_path algorithm hashes).corrupted
            (verify_integrity stop fs ch base_path algorithm hashes).errors time
            src).summary.verification_errors
          = ((verify_integrity stop fs ch base_path algorithm hashes).results.filter
              (fun p => p.2 == Outcome.VERIFICATION_ERROR)).length
      ∧ (save_verification_report (verify_integrity stop fs ch base_path algorithm hashes).results
            (verify_integrity stop fs ch base_path algorithm hashes).corrupted
            (verify_integrity stop fs ch base_path algorithm hashes).errors time
            src).detailed_results
          = (verify_integrity stop fs ch base_path algorithm hashes).results
      ∧ (verify_integrity stop fs ch base_path algorithm hashes).results.map Prod.fst
          = (hashes.map Prod.fst).take
              (verify_integrity stop fs ch base_path algorithm hashes).completed
      ∧ ((verify_integrity stop fs ch base_path algorithm hashes).results.map Prod.fst).Nodup := by
  have hcount : ∀ (o : Outcome) (results : List (String × Outcome)),
      (results.map Prod.snd).countP (· == o)
        = (results.filter (fun p => p.2 == o)).length := by
    intro o results
    rw [List.countP_map, List.countP_eq_length_filter]
    rfl
  have hkeys' : (verify_integrity stop fs ch base_path algorithm hashes).results.map Prod.fst
      = (hashes.map Prod.fst).take
          (verify_integrity stop fs ch base_path algorithm hashes).completed := by
    obtain ⟨k, hk, hkeys, hcomp⟩ :=
      verifyLoop_keys stop fs ch base_path algorithm hashes.length hashes initVerify
    show (verifyLoop stop fs ch base_path algorithm hashes.length hashes initVerify).results.map
        Prod.fst
      = (hashes.map Prod.fst).take
          (verifyLoop stop fs ch base_path algorithm hashes.length hashes initVerify).completed
    rw [hkeys, hcomp]
    simp [initVerify]
  refine ⟨hcount _ _, hcount _ _, hcount _ _, hcount _ _, hcount _ _, rfl, hkeys', ?_⟩
  rw [hkeys']
  exact List.Nodup.sublist (List.take_sublist _ _) hnd

theorem verification_report_summary_witness :
    (([("r", (⟨"h", "", 0, 0⟩ : FileRecord))].map Prod.fst).Nodup)
      ∧ (save_verification_report
            (verify_integrity (fun _ => false) (fun _ => false) (fun _ _ => Except.ok none)
              none "A" [("r", ⟨"h", "", 0, 0⟩)]).results
            (verify_integrity (fun _ => false) (fun _ => false) (fun _ _ => Except.ok none)
              none "A" [("r", ⟨"h", "", 0, 0⟩)]).corrupted
            (verify_integrity (fun _ => false) (fun _ => false) (fun _ _ => Except.ok none)
              none "A" [("r", ⟨"h", "", 0, 0⟩)]).errors "t" "s").summary.matches'
          = ((verify_integrity (fun _ => false) (fun _ => false) (fun _ _ => Except.ok none)
              none "A" [("r", ⟨"h", "", 0, 0⟩)]).results.filter
              (fun p => p.2 == Outcome.MATCH)).length
      ∧ ((verify_integrity (fun _ => false) (fun _ => false) (fun _ _ => Except.ok none)
            none "A" [("r", ⟨"h", "", 0, 0⟩)]).results.map Prod.fst).Nodup :=
  ⟨by decide,
    (verification_report_summary (fun _ => false) (fun _ => false) (fun _ _ => Except.ok none)
      none "A" [("r", ⟨"h", "", 0, 0⟩)] "t" "s" (by decide)).1,
    (verification_report_summary (fun _ => false) (fun _ => false) (fun _ _ => Except.ok none)
      none "A" [("r", ⟨"h", "", 0, 0⟩)] "t" "s" (by decide)).2.2.2.2.2.2.2⟩

/-- Claim C10 (confirmed): in a persisted manifest from a completed
(uncancelled) scan, `metadata.total_files` counts only the successfully
hashed entries (and, when the relative keys do not collide, equals the size
of the `hashes` mapping) while failed paths are counted separately in
`metadata.error_files`; the two together count every file walked, so a scan
with failures yields `total_files` strictly below the number of files
walked. -/
theorem manifest_total_files (completions : List (String × JobResult))
    (relOf : String → String) (statOf : String → Option (Int × Int))
    (algorithm loc ts : String)
    (hinj : ((scan_location_run (fun _ => false) completions).results.map
        (fun p => relOf p.1)).Nodup) :
    (save_hashes (scan_location_run (fun _ => false) completions).results
          (scan_location_run (fun _ => false) completions).errors
          algorithm loc ts relOf statOf).metadata.total_files
        = Int.ofNat (scan_location_run (fun _ => false) completions).results.length
      ∧ (save_hashes (scan_location_run (fun _ => false) completions).results
            (scan_location_run (fun _ => false) completions).errors
            algorithm loc ts relOf statOf).hashes.length
          = (scan_location_run (fun _ => false) completions).results.length
      ∧ (save_hashes (scan_location_run (fun _ => false) completions).results
            (scan_location_run (fun _ => false) completions).errors
            algorithm loc ts relOf statOf).metadata.error_files
          = Int.ofNat (scan_location_run (fun _ => false) completions).errors.length
      ∧ (save_hashes (scan_location_run (fun _ => false) completions).results
            (scan_location_run (fun _ => false) completions).errors
            algorithm loc ts relOf statOf).metadata.total_files
          + (save_hashes (scan_location_run (fun _ => false) completions).results
              (scan_location_run (fun _ => false) completions).errors
              algorithm loc ts relOf statOf).metadata.error_files
          = Int.ofNat completions.length
      ∧ ((scan_location_run (fun _ => false) completions).errors ≠ [] →
          (save_hashes (scan_location_run (fun _ => false) completions).results
              (scan_location_run (fun _ => false) completions).errors
              algorithm loc ts relOf statOf).metadata.total_files
            < Int.ofNat completions.length) := by
  have hlen : (scan_location_run (fun _ => false) completions).results.length
      + (scan_location_run (fun _ => false) completions).errors.length
      = completions.length := by
    have h := scanLoop_no_stop_length completions.length completions initScan
    simpa [scan_location_run, initScan] using h
  have hkeys : ((save_hashes (scan_location_run (fun _ => false) completions).results
      (scan_location_run (fun _ => false) completions).errors
      algorithm loc ts relOf statOf).hashes).map Prod.fst
      = (scan_location_run (fun _ => false) completions).results.map
          (fun p => relOf p.1) := by
    have h := foldl_dictInsert_keys relOf
      (fun p => ⟨p.2, p.1, ((statOf p.1).map Prod.fst).getD 0,
        ((statOf p.1).map Prod.snd).getD 0⟩)
      (scan_location_run (fun _ => false) completions).results [] (by simpa using hinj)
    simpa using h
  refine ⟨rfl, ?_, rfl, ?_, ?_⟩
  · have h1 : ((save_hashes (scan_location_run (fun _ => false) completions).results
        (scan_location_run (fun _ => false) completions).errors
        algorithm loc ts relOf statOf).hashes).length
        = (((save_hashes (scan_location_run (fun _ => false) completions).results
            (scan_location_run (fun _ => false) completions).errors
            algorithm loc ts relOf statOf).hashes).map Prod.fst).length :=
      (List.length_map _ _).symm
    rw [h1, hkeys, List.length_map]
  · show ((scan_location_run (fun _ => false) completions).results.length : Int)
        + ((scan_location_run (fun _ => false) completions).errors.length : Int)
        = (completions.length : Int)
    omega
  · intro herr
    have hpos : 0 < (scan_location_run (fun _ => false) completions).errors.length :=
      List.length_pos.mpr herr
    show ((scan_location_run (fun _ => false) completions).results.length : Int)
        < (completions.length : Int)
    omega

theorem manifest_total_files_witness :
    (((scan_location_run (fun _ => false)
        [("a", JobResult.value (some "h")), ("b", JobResult.value none)]).results.map
        (fun p => id p.1)).Nodup)
      ∧ (save_hashes (scan_location_run (fun _ => false)
            [("a", JobResult.value (some "h")), ("b", JobResult.value none)]).results
            (scan_location_run (fun _ => false)
              [("a", JobResult.value (some "h")), ("b", JobResult.value none)]).errors
            "A" "L" "T" id (fun _ => none)).hashes.length
          = (scan_location_run (fun _ => false)
              [("a", JobResult.value (some "h")), ("b", JobResult.value none)]).results.length
      ∧ (save_hashes (scan_location_run (fun _ => false)
            [("a", JobResult.value (some "h")), ("b", JobResult.value none)]).results
            (scan_location_run (fun _ => false)
              [("a", JobResult.value (some "h")), ("b", JobResult.value none)]).errors
            "A" "L" "T" id (fun _ => none)).metadata.total_files
          + (save_hashes (scan_location_run (fun _ => false)
              [("a", JobResult.value (some "h")), ("b", JobResult.value none)]).results
              (scan_location_run (fun _ => false)
                [("a", JobResult.value (some "h")), ("b", JobResult.value none)]).errors
              "A" "L" "T" id (fun _ => none)).metadata.error_files
          = (2 : Int)
      ∧ (save_hashes (scan_location_run (fun _ => false)
            [("a", JobResult.value (some "h")), ("b", JobResult.value none)]).results
            (scan_location_run (fun _ => false)
              [("a", JobResult.value (some "h")), ("b", JobResult.value none)]).errors
            "A" "L" "T" id (fun _ => none)).metadata.total_files
          < (2 : Int) :=
  ⟨by decide,
    (manifest_total_files [("a", JobResult.value (some "h")), ("b", JobResult.value none)]
      id (fun _ => none) "A" "L" "T" (by decide)).2.1,
    (manifest_total_files [("a", JobResult.value (some "h")), ("b", JobResult.value none)]
      id (fun _ => none) "A" "L" "T" (by decide)).2.2.2.1,
    (manifest_total_files [("a", JobResult.value (some "h")), ("b", JobResult.value none)]
      id (fun _ => none) "A" "L" "T" (by decide)).2.2.2.2 (by decide)⟩
